import Mathlib

/-!
Verification of the stepper-motor driver `xdrv_23_stepper.ino` of
gsimon75-iot/Sonoff-Tasmota against its natural-language specification.

The development shallowly embeds the driver's state machine:

* `PhaseState`, the scheme tables and `all_off` mirror the C tables
  (`src/sonoff/xdrv_23_stepper.ino`, identical in both other revisions).
* `StepperState` collects the module-level mutable variables of
  `src/sonoff/xdrv_23_stepper.ino` (`tick_us`, `current_scheme`,
  `max_phase`, `current_phase`, `current_pos`, `wanted_pos`, `idle`,
  `lock_when_done`) together with the timer registers the code touches
  (`TEIE` bit `TEIE1` as `teie1`, reload register `T1L` as `t1l`).
* Command handlers receive the already-tokenised argument buffer as a
  `List Token`: `strtok_r` never yields empty tokens, a token that is
  all whitespace is `Token.blank`, a token `strtol` parses is
  `Token.num`, and a token `strtol` rejects is `Token.nonnum` carrying
  the value `GetStateNumber` would return for it.
* Pin writes (`digitalWrite`) are side effects outside the state; the
  sequencer functions return the `PhaseState` handed to `StepperSet`,
  and `StepperSet` itself is modelled separately as the list of
  pin writes it performs, in order, for claims about write ordering.
* The `P0` namespace embeds the revision in `src/unnamed/part_000`,
  which persists state into the settings blob (`SaveCurrentPos`,
  `SelectScheme`, 16-bit `tick_us`).

Machine integers are `Int`/`Nat` with explicit wrapping where the C
types can wrap: `int8wrap`, `int16wrap`, `int32wrap`, `toUInt16`,
`u32ofInt`.
-/

/-- Value of one `stepper_state_t` bit-field record: six boolean drive
signals, in the declaration order of the C struct. -/
structure PhaseState where
  A_pos : Bool
  B_pos : Bool
  A_neg : Bool
  B_neg : Bool
  A_ena : Bool
  B_ena : Bool
deriving DecidableEq, Repr

/-- Off-state `all_off = {0,0,0,0, 0,0}`: every control as disabled as
it can be. -/
def all_off : PhaseState :=
  { A_pos := false, B_pos := false, A_neg := false, B_neg := false,
    A_ena := false, B_ena := false }

/-- Shorthand for a table row `{a,b,c,d, e,f}` in struct field order
`A_pos, B_pos, A_neg, B_neg, A_ena, B_ena`. -/
def ph (a b c d e f : Bool) : PhaseState :=
  { A_pos := a, B_pos := b, A_neg := c, B_neg := d, A_ena := e, B_ena := f }

/-- Table `rotating_wave[]` (4 phases). -/
def rotating_wave : List PhaseState :=
  [ ph true  false false false true true,
    ph false true  false false true true,
    ph false false true  false true true,
    ph false false false true  true true ]

/-- Table `full_step[]` (4 phases). -/
def full_step : List PhaseState :=
  [ ph true  false false true  true true,
    ph true  true  false false true true,
    ph false true  true  false true true,
    ph false false true  true  true true ]

/-- Table `half_step[]` (8 phases). -/
def half_step : List PhaseState :=
  [ ph true  false false true  true true,
    ph true  false false false true true,
    ph true  true  false false true true,
    ph false true  false false true true,
    ph false true  true  false true true,
    ph false false true  false true true,
    ph false false true  true  true true,
    ph false false false true  true true ]

/-- Table `half_step_inhibit[]` (8 phases). -/
def half_step_inhibit : List PhaseState :=
  [ ph true  false false true  true  true,
    ph true  false false true  true  false,
    ph true  true  false false true  true,
    ph true  true  false false false true,
    ph false true  true  false true  true,
    ph false true  true  false true  false,
    ph false false true  true  true  true,
    ph false false true  true  false true ]

/-- Identifier of one of the four built-in scheme tables, standing for
the `current_scheme` pointer of the C code. -/
inductive SchemeId
  | rotating_wave
  | full_step
  | half_step
  | half_step_inhibit
deriving DecidableEq, Repr

/-- Phase list the `current_scheme` pointer designates. -/
def schemePhases : SchemeId → List PhaseState
  | .rotating_wave => rotating_wave
  | .full_step => full_step
  | .half_step => half_step
  | .half_step_inhibit => half_step_inhibit

/-- Array lookup `current_scheme[i]`, total with default `all_off`
(theorems only use it at indices proved in range). -/
def schemeAt (sid : SchemeId) (i : Int) : PhaseState :=
  (schemePhases sid).getD i.toNat all_off

/-- Physical output line of the driver. -/
inductive Pin
  | A_ena
  | B_ena
  | A_pos
  | A_neg
  | B_pos
  | B_neg
deriving DecidableEq, Repr

/-- Unconditional middle block of `StepperSet`: the four direction
lines, written with the target phase's values, in source order. -/
def dirWrites (st : PhaseState) : List (Pin × Bool) :=
  [(Pin.A_pos, st.A_pos), (Pin.A_neg, st.A_neg),
   (Pin.B_pos, st.B_pos), (Pin.B_neg, st.B_neg)]

/-- List of `digitalWrite` calls `StepperSet(st)` performs, in order:
when `have_enable_pins`, it first writes `0` to every enable line whose
target bit is `0`, then the four direction lines, then writes `1` to
every enable line whose target bit is `1`. -/
def StepperSet (have_enable_pins : Bool) (st : PhaseState) : List (Pin × Bool) :=
  (if have_enable_pins then
    (if st.A_ena = false then [(Pin.A_ena, false)] else []) ++
    (if st.B_ena = false then [(Pin.B_ena, false)] else [])
  else []) ++
  dirWrites st ++
  (if have_enable_pins then
    (if st.A_ena = true then [(Pin.A_ena, true)] else []) ++
    (if st.B_ena = true then [(Pin.B_ena, true)] else [])
  else [])

/-- Two's-complement wrap of an `Int` into `int8_t` range. -/
def int8wrap (n : Int) : Int := (n + 128) % 256 - 128

/-- Two's-complement wrap of an `Int` into `int16_t` range. -/
def int16wrap (n : Int) : Int := (n + 32768) % 65536 - 32768

/-- Two's-complement wrap of an `Int` into `int32_t` range. -/
def int32wrap (n : Int) : Int := (n + 2 ^ 31) % 2 ^ 32 - 2 ^ 31

/-- Cast of a signed value to `uint16_t`. -/
def toUInt16 (n : Int) : Nat := (n % 65536).toNat

/-- Cast of a signed value to a 32-bit `unsigned long`. -/
def u32ofInt (n : Int) : Nat := (n % 2 ^ 32).toNat

/-- Comma-separated argument token as `strtok_r` hands it to a command
handler. `blank` is a token that is all whitespace (the `if (*str)`
guard skips it); `num n` is a token `strtol` parses to `n`; `nonnum g`
is a token `strtol` rejects, with `g` the value `GetStateNumber` would
return for it. -/
inductive Token
  | blank
  | num (n : Int)
  | nonnum (g : Int)
deriving DecidableEq, Repr

/-- Acknowledgement of a command: `ResponseCmndDone` or
`ResponseCmndChar(D_ERROR)`. -/
inductive CmndResult
  | done
  | error
deriving DecidableEq, Repr

/-- Module-level mutable state of `src/sonoff/xdrv_23_stepper.ino`:
the MotionState fields plus the timer registers the driver touches
(`teie1` is bit `TEIE1` of `TEIE`, `t1l` is the 23-bit reload register
`T1L`). -/
structure StepperState where
  tick_us : Nat
  current_scheme : SchemeId
  max_phase : Int
  current_phase : Int
  current_pos : Int
  wanted_pos : Int
  idle : Bool
  lock_when_done : Bool
  teie1 : Bool
  t1l : Nat
deriving DecidableEq, Repr

/-- Clock constant `ESP8266_CLOCK` (80 MHz). -/
def ESP8266_CLOCK : Nat := 80000000

/-- Timer reload value `(ESP8266_CLOCK / 1000000) * tick_us` computed
by `stepper_timer_isr` before truncation to the register width. -/
def timerReload (tick_us : Nat) : Nat := (ESP8266_CLOCK / 1000000) * tick_us

/-- Handler `StepperCmndCalibrate` of `src/sonoff`: assumes the current
state as position 0, goes idle, and drives `all_off` (the returned
phase is the argument of its `StepperSet` call). -/
def StepperCmndCalibrate (s : StepperState) : CmndResult × StepperState × PhaseState :=
  (.done, { s with current_pos := 0, wanted_pos := 0, idle := true }, all_off)

/-- Scheme-code switch of `StepperCmndSpeed` in `src/sonoff`: yields
the new `current_scheme` and `max_phase`, or `none` for the `default`
error branch. Code 3 degrades to `half_step` when the enable pins are
not wired. -/
def speedSelectScheme (have_enable_pins : Bool) (code : Int) :
    Option (SchemeId × Int) :=
  if code = 0 then some (.rotating_wave, 4)
  else if code = 1 then some (.full_step, 4)
  else if code = 2 then some (.half_step, 8)
  else if code = 3 then
    (if have_enable_pins then some (.half_step_inhibit, 8)
     else some (.half_step, 8))
  else none

/-- Second half of `StepperCmndSpeed` in `src/sonoff`: parse of the
`scheme_code` token. On a valid code it installs the scheme, sets
`max_phase` and resets `current_phase` to 0. -/
def speedParseScheme (have_enable_pins : Bool) (args : List Token)
    (s : StepperState) : CmndResult × StepperState :=
  match args with
  | [] => (.done, s)
  | .blank :: _ => (.done, s)
  | .nonnum _ :: _ => (.error, s)
  | .num n :: _ =>
    match speedSelectScheme have_enable_pins (int32wrap n) with
    | none => (.error, s)
    | some (sid, mp) =>
      (.done, { s with current_scheme := sid, max_phase := mp,
                       current_phase := 0 })

/-- Handler `StepperCmndSpeed` of `src/sonoff`. The first token is
assigned to `tick_us` by `tick_us = (unsigned long)strtol(...)` before
the `p == str` check, so an unparsable first token zeroes `tick_us` and
then errors out. -/
def StepperCmndSpeed (have_enable_pins : Bool) (args : List Token)
    (s : StepperState) : CmndResult × StepperState :=
  match args with
  | [] => (.done, s)
  | .blank :: rest => speedParseScheme have_enable_pins rest s
  | .num n :: rest =>
    speedParseScheme have_enable_pins rest { s with tick_us := u32ofInt n }
  | .nonnum _ :: _ => (.error, { s with tick_us := 0 })

/-- Tail of `StepperCmndStep` in `src/sonoff` after parsing: computes
`wanted_pos` from `is_absolute`/`req_pos`, then inside the
`TEIE` critical section clears `idle`, seeds `T1L = 1` when it was
idle, and re-enables the timer interrupt. -/
def stepFinish (req_pos : Int) (is_absolute : Bool) (s : StepperState) :
    CmndResult × StepperState :=
  let w := if is_absolute then req_pos else int32wrap (s.current_pos + req_pos)
  (.done, { s with wanted_pos := w,
                   t1l := if s.idle then 1 else s.t1l,
                   idle := false,
                   teie1 := true })

/-- Parse of the third `StepperCmndStep` token (`lock_when_done`): a
numeric or state-word value of 0 or 1 sets the flag, anything else is
the `(i != 0) && (i != 1)` error. -/
def stepParseLock (args : List Token) (req_pos : Int) (is_absolute : Bool)
    (s : StepperState) : CmndResult × StepperState :=
  match args with
  | [] => stepFinish req_pos is_absolute s
  | .blank :: _ => stepFinish req_pos is_absolute s
  | .num n :: _ =>
    if int32wrap n = 0 then
      stepFinish req_pos is_absolute { s with lock_when_done := false }
    else if int32wrap n = 1 then
      stepFinish req_pos is_absolute { s with lock_when_done := true }
    else (.error, s)
  | .nonnum g :: _ =>
    if g = 0 then stepFinish req_pos is_absolute { s with lock_when_done := false }
    else if g = 1 then stepFinish req_pos is_absolute { s with lock_when_done := true }
    else (.error, s)

/-- Parse of the second `StepperCmndStep` token (`is_absolute`),
defaulting to `true` when the token is blank or absent. -/
def stepParseAbsolute (args : List Token) (req_pos : Int)
    (s : StepperState) : CmndResult × StepperState :=
  match args with
  | [] => stepFinish req_pos true s
  | .blank :: rest => stepParseLock rest req_pos true s
  | .num n :: rest =>
    if int32wrap n = 0 then stepParseLock rest req_pos false s
    else if int32wrap n = 1 then stepParseLock rest req_pos true s
    else (.error, s)
  | .nonnum g :: rest =>
    if g = 0 then stepParseLock rest req_pos false s
    else if g = 1 then stepParseLock rest req_pos true s
    else (.error, s)

/-- Handler `StepperCmndStep` of `src/sonoff`. `lock_when_done` is
reset to `false` before any token is parsed (source line 305), so even
the error returns leave that reset behind. -/
def StepperCmndStep (args : List Token) (s0 : StepperState) :
    CmndResult × StepperState :=
  let s := { s0 with lock_when_done := false }
  match args with
  | [] => stepFinish 0 true s
  | .blank :: rest => stepParseAbsolute rest 0 s
  | .num n :: rest => stepParseAbsolute rest (int32wrap n) s
  | .nonnum _ :: _ => (.error, s)

/-- Trailing `if (!idle)` of `stepper_timer_isr`: rearms the timer with
the (23-bit truncated) reload value while motion is pending. -/
def isrFinish (sa : StepperState × PhaseState) : StepperState × PhaseState :=
  if sa.1.idle then sa
  else ({ sa.1 with t1l := timerReload sa.1.tick_us % 2 ^ 23, teie1 := true },
        sa.2)

/-- Interrupt handler `stepper_timer_isr` of `src/sonoff`: one
sequencer tick. Returns the updated state and the phase handed to
`StepperSet`. The `int8wrap` calls reflect `current_phase` being an
`int8_t`. -/
def stepper_timer_isr (s0 : StepperState) : StepperState × PhaseState :=
  let s := { s0 with teie1 := false }
  if s.wanted_pos < s.current_pos then
    let phm := int8wrap (s.current_phase - 1)
    let phm := if phm < 0 then int8wrap (s.max_phase - 1) else phm
    isrFinish ({ s with current_phase := phm, current_pos := s.current_pos - 1 },
               schemeAt s.current_scheme phm)
  else if s.wanted_pos > s.current_pos then
    let php := int8wrap (s.current_phase + 1)
    let php := if s.max_phase ≤ php then 0 else php
    isrFinish ({ s with current_phase := php, current_pos := s.current_pos + 1 },
               schemeAt s.current_scheme php)
  else
    isrFinish ({ s with idle := true },
               if s.lock_when_done then schemeAt s.current_scheme s.current_phase
               else all_off)

/-- State after `StepperInit` of `src/sonoff` (with the stepper pins
configured, so the timer is set up and `TEIE1` cleared). -/
def initState : StepperState :=
  { tick_us := 2000, current_scheme := .half_step, max_phase := 8,
    current_phase := 0, current_pos := 0, wanted_pos := 0,
    idle := true, lock_when_done := false, teie1 := false, t1l := 0 }

/-- Event of the module: one of the three commands (with its token
list) or one sequencer tick. -/
inductive Cmd
  | calibrate
  | speed (args : List Token)
  | step (args : List Token)
  | tick
deriving Repr

/-- State transition of one event. -/
def runCmd (have_enable_pins : Bool) : Cmd → StepperState → StepperState
  | .calibrate, s => (StepperCmndCalibrate s).2.1
  | .speed args, s => (StepperCmndSpeed have_enable_pins args s).2
  | .step args, s => (StepperCmndStep args s).2
  | .tick, s => (stepper_timer_isr s).1

/-- State after running a sequence of events. -/
def runSeq (have_enable_pins : Bool) (cs : List Cmd) (s : StepperState) :
    StepperState :=
  cs.foldl (fun t c => runCmd have_enable_pins c t) s

namespace P0

/-!
Embedding of the revision in `src/unnamed/part_000`, which persists
state into the reused PWM settings slots: `Settings.pwm_value[0..1]`
hold `current_pos`, `Settings.pwm_value[5]` the scheme index, and
`Settings.pwm_frequency` the 16-bit `tick_us`.
-/

/-- Settings fields this revision reuses (each `pwm_value` slot is one
byte, `pwm_frequency` is 16-bit). -/
structure Settings where
  pwm_value0 : Nat
  pwm_value1 : Nat
  pwm_value5 : Nat
  pwm_frequency : Nat
deriving DecidableEq, Repr

/-- Module-level mutable state of `src/unnamed/part_000`: transient
variables, persistent variables, the settings blob and the timer bits.
`current_scheme` holds the `stepper_control_scheme_t` copied by
`SelectScheme` (its `phases`/`max_phase` are `schemePhases` and its
length, since `control_schemes[n].max_phase` is the table size). -/
structure State where
  idle : Bool
  current_phase : Int
  wanted_pos : Int
  lock_when_done : Bool
  tick_us : Nat
  current_scheme_index : Nat
  current_scheme : SchemeId
  current_pos : Int
  settings : Settings
  teie1 : Bool
  t1l : Nat
deriving DecidableEq, Repr

/-- Function `SaveCurrentPos`: stores the two bytes of `current_pos`
into `Settings.pwm_value[0]` (low) and `Settings.pwm_value[1]`
(high). -/
def SaveCurrentPos (s : State) : State :=
  { s with settings :=
    { s.settings with
        pwm_value0 := toUInt16 s.current_pos % 256,
        pwm_value1 := toUInt16 s.current_pos / 256 } }

/-- Position `StepperInit` would restore from the settings blob:
`(int16_t)(pwm_value[0] + (pwm_value[1] << 8))`. -/
def restoredPos (st : Settings) : Int :=
  int16wrap ((st.pwm_value0 : Int) + (st.pwm_value1 : Int) * 256)

/-- Table index to scheme, per `control_schemes[]` order. -/
def schemeOfIndex : Nat → SchemeId
  | 0 => .rotating_wave
  | 1 => .full_step
  | 2 => .half_step
  | _ => .half_step_inhibit

/-- Function `SelectScheme(n)` of `part_000`: `none` models the
`return false` for an out-of-range index. An index equal to the
current one is accepted without touching anything. Otherwise it
installs the scheme, stops the motion (`wanted_pos = current_pos`),
resets `current_phase`, and stores the index in `pwm_value[5]`.
The final `TEIE |= ~TEIE1` of the source leaves bit `TEIE1` cleared
(it sets every bit except `TEIE1`), so `teie1` stays `false`. -/
def SelectScheme (s : State) (n : Int) : Option State :=
  if n < 0 ∨ 4 ≤ n then none
  else if n = (s.current_scheme_index : Int) then some s
  else some
    { s with teie1 := false,
             current_scheme_index := n.toNat,
             wanted_pos := s.current_pos,
             current_phase := 0,
             current_scheme := schemeOfIndex n.toNat,
             settings := { s.settings with pwm_value5 := n.toNat } }

/-- Interrupt handler `stepper_timer_isr` of `part_000`: like the
`src/sonoff` one, but the arrived branch additionally calls
`SaveCurrentPos`, and `max_phase` lives inside the scheme record. -/
def stepper_timer_isr (s0 : State) : State × PhaseState :=
  let s := { s0 with teie1 := false }
  let mp : Int := ((schemePhases s.current_scheme).length : Int)
  if s.wanted_pos < s.current_pos then
    let phm := int8wrap (s.current_phase - 1)
    let phm := if phm < 0 then int8wrap (mp - 1) else phm
    ({ s with current_phase := phm, current_pos := s.current_pos - 1,
              t1l := timerReload s.tick_us % 2 ^ 23, teie1 := true },
     schemeAt s.current_scheme phm)
  else if s.wanted_pos > s.current_pos then
    let php := int8wrap (s.current_phase + 1)
    let php := if mp ≤ php then 0 else php
    ({ s with current_phase := php, current_pos := s.current_pos + 1,
              t1l := timerReload s.tick_us % 2 ^ 23, teie1 := true },
     schemeAt s.current_scheme php)
  else
    ({ SaveCurrentPos s with idle := true },
     if s.lock_when_done then schemeAt s.current_scheme s.current_phase
     else all_off)

/-- Second half of `StepperCmndSpeed` in `part_000`: parse of the
`scheme_code` token, handed to `SelectScheme`. -/
def speedParseScheme (args : List Token) (s : State) : CmndResult × State :=
  match args with
  | [] => (.done, s)
  | .blank :: _ => (.done, s)
  | .nonnum _ :: _ => (.error, s)
  | .num n :: _ =>
    match SelectScheme s (int32wrap n) with
    | none => (.error, s)
    | some s2 => (.done, s2)

/-- Handler `StepperCmndSpeed` of `part_000`: the first token is
parsed into the local `req_tick_us` as `uint16_t` and only committed
(also to `Settings.pwm_frequency`) after the parse check and only when
it differs from the current value; the second token goes through
`SelectScheme`. -/
def StepperCmndSpeed (args : List Token) (s : State) : CmndResult × State :=
  match args with
  | [] => (.done, s)
  | .blank :: rest => speedParseScheme rest s
  | .num n :: rest =>
    let req_tick_us := toUInt16 n
    if req_tick_us ≠ s.tick_us then
      speedParseScheme rest
        { s with tick_us := req_tick_us,
                 settings := { s.settings with pwm_frequency := req_tick_us } }
    else speedParseScheme rest s
  | .nonnum _ :: _ => (.error, s)

end P0

/-!
Inductive invariant of the `src/sonoff` state machine, shared by the
reachability claims: `max_phase` matches the active scheme's length,
`current_phase` is a valid index, and the module is only idle when the
position error is zero.
-/

/-- Combined inductive invariant of the reachable states. -/
def StepperInv (s : StepperState) : Prop :=
  s.max_phase = ((schemePhases s.current_scheme).length : Int) ∧
  0 ≤ s.current_phase ∧ s.current_phase < s.max_phase ∧
  (s.idle = true → s.wanted_pos = s.current_pos)

theorem schemePhases_length_pos (sid : SchemeId) :
    0 < (schemePhases sid).length := by cases sid <;> decide

theorem schemePhases_length_le (sid : SchemeId) :
    (schemePhases sid).length ≤ 8 := by cases sid <;> decide

theorem inv_calibrate (s : StepperState) (h : StepperInv s) :
    StepperInv (StepperCmndCalibrate s).2.1 := by
  obtain ⟨h1, h2, h3, _⟩ := h
  exact ⟨h1, h2, h3, fun _ => rfl⟩

theorem inv_set_lock (s : StepperState) (b : Bool) (h : StepperInv s) :
    StepperInv { s with lock_when_done := b } := h

theorem inv_set_tick (s : StepperState) (t : Nat) (h : StepperInv s) :
    StepperInv { s with tick_us := t } := h

theorem inv_stepFinish (req : Int) (b : Bool) (s : StepperState) (h : StepperInv s) :
    StepperInv (stepFinish req b s).2 := by
  obtain ⟨h1, h2, h3, _⟩ := h
  exact ⟨h1, h2, h3, fun hfalse => by simp [stepFinish] at hfalse⟩

theorem inv_stepParseLock (args : List Token) (req : Int) (b : Bool)
    (s : StepperState) (h : StepperInv s) : StepperInv (stepParseLock args req b s).2 := by
  cases args with
  | nil => exact inv_stepFinish _ _ _ h
  | cons t rest =>
    cases t with
    | blank => exact inv_stepFinish _ _ _ h
    | num n =>
      simp only [stepParseLock]
      split
      · exact inv_stepFinish _ _ _ (inv_set_lock _ _ h)
      · split
        · exact inv_stepFinish _ _ _ (inv_set_lock _ _ h)
        · exact h
    | nonnum g =>
      simp only [stepParseLock]
      split
      · exact inv_stepFinish _ _ _ (inv_set_lock _ _ h)
      · split
        · exact inv_stepFinish _ _ _ (inv_set_lock _ _ h)
        · exact h

theorem inv_stepParseAbsolute (args : List Token) (req : Int)
    (s : StepperState) (h : StepperInv s) : StepperInv (stepParseAbsolute args req s).2 := by
  cases args with
  | nil => exact inv_stepFinish _ _ _ h
  | cons t rest =>
    cases t with
    | blank => exact inv_stepParseLock _ _ _ _ h
    | num n =>
      simp only [stepParseAbsolute]
      split
      · exact inv_stepParseLock _ _ _ _ h
      · split
        · exact inv_stepParseLock _ _ _ _ h
        · exact h
    | nonnum g =>
      simp only [stepParseAbsolute]
      split
      · exact inv_stepParseLock _ _ _ _ h
      · split
        · exact inv_stepParseLock _ _ _ _ h
        · exact h

theorem inv_step (args : List Token) (s : StepperState) (h : StepperInv s) :
    StepperInv (StepperCmndStep args s).2 := by
  cases args with
  | nil => exact inv_stepFinish _ _ _ (inv_set_lock _ _ h)
  | cons t rest =>
    cases t with
    | blank => exact inv_stepParseAbsolute _ _ _ (inv_set_lock _ _ h)
    | num n => exact inv_stepParseAbsolute _ _ _ (inv_set_lock _ _ h)
    | nonnum g => exact inv_set_lock _ _ h

theorem speedSelectScheme_spec (hep : Bool) (c : Int) (sid : SchemeId)
    (mp : Int) (h : speedSelectScheme hep c = some (sid, mp)) :
    mp = ((schemePhases sid).length : Int) ∧ 0 < mp := by
  unfold speedSelectScheme at h
  split_ifs at h <;>
    · obtain ⟨rfl, rfl⟩ := Prod.mk.injEq .. ▸ Option.some.inj h
      constructor <;> decide

theorem inv_speedParseScheme (hep : Bool) (args : List Token)
    (s : StepperState) (h : StepperInv s) :
    StepperInv (speedParseScheme hep args s).2 := by
  cases args with
  | nil => exact h
  | cons t rest =>
    cases t with
    | blank => exact h
    | nonnum g => exact h
    | num n =>
      simp only [speedParseScheme]
      rcases hss : speedSelectScheme hep (int32wrap n) with _ | ⟨sid, mp⟩
      · exact h
      · obtain ⟨hmp, hpos⟩ := speedSelectScheme_spec hep _ sid mp hss
        exact ⟨hmp, le_refl 0, hmp ▸ hpos, h.2.2.2⟩

theorem inv_speed (hep : Bool) (args : List Token) (s : StepperState)
    (h : StepperInv s) : StepperInv (StepperCmndSpeed hep args s).2 := by
  cases args with
  | nil => exact h
  | cons t rest =>
    cases t with
    | blank => exact inv_speedParseScheme _ _ _ h
    | num n => exact inv_speedParseScheme _ _ _ (inv_set_tick _ _ h)
    | nonnum g => exact inv_set_tick _ _ h

theorem inv_isrFinish (sa : StepperState × PhaseState) (h : StepperInv sa.1) :
    StepperInv (isrFinish sa).1 := by
  unfold isrFinish
  split
  · exact h
  · exact h

theorem inv_tick (s : StepperState) (h : StepperInv s) :
    StepperInv (stepper_timer_isr s).1 := by
  obtain ⟨hmax, hlo, hhi, hidle⟩ := h
  have hm1 : 1 ≤ s.max_phase := by
    rw [hmax]; exact_mod_cast schemePhases_length_pos s.current_scheme
  have hm8 : s.max_phase ≤ 8 := by
    rw [hmax]; exact_mod_cast schemePhases_length_le s.current_scheme
  simp only [stepper_timer_isr]
  split
  · next hlt =>
      apply inv_isrFinish
      refine ⟨hmax, ?_, ?_, ?_⟩
      · simp only [int8wrap]; split <;> omega
      · simp only [int8wrap]; split <;> omega
      · intro hi
        exact absurd (hidle hi) (by exact fun he => absurd (he ▸ hlt) (lt_irrefl _))
  · split
    · next hgt =>
        apply inv_isrFinish
        refine ⟨hmax, ?_, ?_, ?_⟩
        · simp only [int8wrap]; split <;> omega
        · simp only [int8wrap]; split <;> omega
        · intro hi
          exact absurd (hidle hi) (by exact fun he => absurd (he ▸ hgt) (lt_irrefl _))
    · next hnlt hngt =>
        apply inv_isrFinish
        exact ⟨hmax, hlo, hhi, fun _ => le_antisymm (not_lt.mp hngt) (not_lt.mp hnlt)⟩

theorem inv_runCmd (hep : Bool) (c : Cmd) (s : StepperState) (h : StepperInv s) :
    StepperInv (runCmd hep c s) := by
  cases c with
  | calibrate => exact inv_calibrate s h
  | speed args => exact inv_speed hep args s h
  | step args => exact inv_step args s h
  | tick => exact inv_tick s h

theorem inv_init : StepperInv initState :=
  ⟨by decide, by decide, by decide, fun _ => rfl⟩

theorem inv_runSeq (hep : Bool) (cs : List Cmd) :
    StepperInv (runSeq hep cs initState) := by
  suffices hgen : ∀ s, StepperInv s → StepperInv (runSeq hep cs s) from hgen _ inv_init
  induction cs with
  | nil => exact fun s hs => hs
  | cons c cs ih => exact fun s hs => ih (runCmd hep c s) (inv_runCmd hep c s hs)

/-- C1: for every built-in scheme and every sequence of Calibrate,
Configure and Move commands interleaved with sequencer ticks starting
from the initial state, `current_phase` remains in `[0, N)` where `N`
is the length of the active scheme. -/
theorem stepper_c1 (have_enable_pins : Bool) (cmds : List Cmd) :
    0 ≤ (runSeq have_enable_pins cmds initState).current_phase ∧
    (runSeq have_enable_pins cmds initState).current_phase <
      ((schemePhases (runSeq have_enable_pins cmds initState).current_scheme).length : Int) := by
  obtain ⟨h1, h2, h3, _⟩ := inv_runSeq have_enable_pins cmds
  exact ⟨h2, h1 ▸ h3⟩

/-- C10: in every state reachable from startup by any sequence of
commands and sequencer ticks, `idle = true` implies
`wanted_pos = current_pos`. -/
theorem stepper_c10 (have_enable_pins : Bool) (cmds : List Cmd)
    (h : (runSeq have_enable_pins cmds initState).idle = true) :
    (runSeq have_enable_pins cmds initState).wanted_pos =
      (runSeq have_enable_pins cmds initState).current_pos :=
  (inv_runSeq have_enable_pins cmds).2.2.2 h

theorem isrFinish_phase (sa : StepperState × PhaseState) :
    (isrFinish sa).1.current_phase = sa.1.current_phase := by
  unfold isrFinish; split <;> rfl

theorem isrFinish_pos (sa : StepperState × PhaseState) :
    (isrFinish sa).1.current_pos = sa.1.current_pos := by
  unfold isrFinish; split <;> rfl

theorem isrFinish_applied (sa : StepperState × PhaseState) :
    (isrFinish sa).2 = sa.2 := by
  unfold isrFinish; split <;> rfl

/-- C2: on every tick with a pending position error the sequencer moves
exactly one step toward the target: with `wanted_pos > current_pos` it
increments `current_phase` modulo `max_phase` and `current_pos` by one,
with `wanted_pos < current_pos` it decrements both modulo
`max_phase` resp. by one, and in both cases it hands the phase at the
new index to `StepperSet`. -/
theorem stepper_c2 (s : StepperState)
    (hmax : s.max_phase = ((schemePhases s.current_scheme).length : Int))
    (hlo : 0 ≤ s.current_phase) (hhi : s.current_phase < s.max_phase) :
    (s.current_pos < s.wanted_pos →
      ((stepper_timer_isr s).1.current_phase =
        (s.current_phase + 1) % s.max_phase ∧
       (stepper_timer_isr s).1.current_pos = s.current_pos + 1 ∧
       (stepper_timer_isr s).2 =
        schemeAt s.current_scheme (stepper_timer_isr s).1.current_phase)) ∧
    (s.wanted_pos < s.current_pos →
      ((stepper_timer_isr s).1.current_phase =
        (s.current_phase - 1) % s.max_phase ∧
       (stepper_timer_isr s).1.current_pos = s.current_pos - 1 ∧
       (stepper_timer_isr s).2 =
        schemeAt s.current_scheme (stepper_timer_isr s).1.current_phase)) := by
  have hm48 : s.max_phase = 4 ∨ s.max_phase = 8 := by
    rw [hmax]; cases s.current_scheme <;> decide
  constructor
  · intro hgt
    simp only [stepper_timer_isr]
    rw [if_neg (by omega : ¬ s.wanted_pos < s.current_pos),
        if_pos (by omega : s.wanted_pos > s.current_pos)]
    rw [isrFinish_phase, isrFinish_pos, isrFinish_applied]
    refine ⟨?_, rfl, rfl⟩
    show (if s.max_phase ≤ int8wrap (s.current_phase + 1) then 0
          else int8wrap (s.current_phase + 1)) =
         (s.current_phase + 1) % s.max_phase
    rcases hm48 with hm | hm <;> rw [hm] at hhi ⊢ <;>
      simp only [int8wrap] <;> split <;> omega
  · intro hlt
    simp only [stepper_timer_isr]
    rw [if_pos (by omega : s.wanted_pos < s.current_pos)]
    rw [isrFinish_phase, isrFinish_pos, isrFinish_applied]
    refine ⟨?_, rfl, rfl⟩
    show (if int8wrap (s.current_phase - 1) < 0 then int8wrap (s.max_phase - 1)
          else int8wrap (s.current_phase - 1)) =
         (s.current_phase - 1) % s.max_phase
    rcases hm48 with hm | hm <;> rw [hm] at hhi ⊢ <;>
      simp only [int8wrap] <;> split <;> omega

/-- Witness for C2 at a concrete state: from the initial state with
`wanted_pos = 5`, one tick advances the phase to `(0 + 1) % 8` and the
position to `0 + 1`. -/
theorem stepper_c2_witness :
    (stepper_timer_isr { initState with wanted_pos := 5 }).1.current_phase =
      (0 + 1) % 8 ∧
    (stepper_timer_isr { initState with wanted_pos := 5 }).1.current_pos =
      0 + 1 := by
  have h := (stepper_c2 { initState with wanted_pos := 5 }
    (by decide) (by decide) (by decide)).1 (by decide)
  exact ⟨h.1, h.2.1⟩

/-- Concrete `part_000` state used by witnesses: stepping towards
position 7 has arrived but the arrival tick has not fired yet. -/
def sampleState0 : P0.State :=
  { idle := false, current_phase := 2, wanted_pos := 7,
    lock_when_done := true, tick_us := 2000, current_scheme_index := 2,
    current_scheme := .half_step, current_pos := 7,
    settings := { pwm_value0 := 0, pwm_value1 := 0, pwm_value5 := 2,
                  pwm_frequency := 2000 },
    teie1 := true, t1l := 0 }

/-- C3: a tick with `wanted_pos = current_pos` hands `StepperSet` the
phase at `current_phase` when `lock_when_done` and `all_off` otherwise,
sets `idle`, persists `current_pos` into the settings bytes (they
decode back to `current_pos`), and leaves `current_pos` and
`current_phase` unchanged. -/
theorem stepper_c3 (s : P0.State) (heq : s.wanted_pos = s.current_pos)
    (hlo : -32768 ≤ s.current_pos) (hhi : s.current_pos < 32768) :
    (P0.stepper_timer_isr s).2 =
      (if s.lock_when_done then schemeAt s.current_scheme s.current_phase
       else all_off) ∧
    (P0.stepper_timer_isr s).1.idle = true ∧
    P0.restoredPos (P0.stepper_timer_isr s).1.settings = s.current_pos ∧
    (P0.stepper_timer_isr s).1.current_pos = s.current_pos ∧
    (P0.stepper_timer_isr s).1.current_phase = s.current_phase := by
  simp only [P0.stepper_timer_isr]
  rw [if_neg (show ¬ s.wanted_pos < s.current_pos by omega),
      if_neg (show ¬ s.wanted_pos > s.current_pos by omega)]
  refine ⟨rfl, rfl, ?_, rfl, rfl⟩
  show P0.restoredPos
      (P0.SaveCurrentPos { s with teie1 := false }).settings = s.current_pos
  simp only [P0.restoredPos, P0.SaveCurrentPos, int16wrap, toUInt16]
  omega

/-- Witness for C3: the arrival tick from `sampleState0` goes idle and
stores bytes that decode back to position 7. -/
theorem stepper_c3_witness :
    (P0.stepper_timer_isr sampleState0).1.idle = true ∧
    P0.restoredPos (P0.stepper_timer_isr sampleState0).1.settings =
      sampleState0.current_pos := by
  have h := stepper_c3 sampleState0 (by decide) (by decide) (by decide)
  exact ⟨h.2.1, h.2.2.1⟩

/-- C5: with the enable pins not configured, a Configure command that
selects scheme index 3 succeeds and installs `half_step` (N = 8), not
`half_step_inhibit`. -/
theorem stepper_c5 (s : StepperState) :
    (StepperCmndSpeed false [Token.blank, Token.num 3] s).1 =
      CmndResult.done ∧
    (StepperCmndSpeed false [Token.blank, Token.num 3] s).2.current_scheme =
      SchemeId.half_step ∧
    (StepperCmndSpeed false [Token.blank, Token.num 3] s).2.max_phase = 8 := by
  have h3 : int32wrap 3 = 3 := by decide
  simp [StepperCmndSpeed, speedParseScheme, speedSelectScheme, h3]

/-- C8: when enable pins exist, every `StepperSet` write trace is an
all-zero-enable-writes prefix, then the four direction lines with the
target phase's values, then an all-one-enable-writes suffix; an enable
line whose target bit is 0 is written low in the prefix, one whose
target bit is 1 is written high in the suffix, and no enable line is
ever raised before the direction lines. -/
theorem stepper_c8 (st : PhaseState) :
    ∃ pre post,
      StepperSet true st = pre ++ dirWrites st ++ post ∧
      (∀ w ∈ pre, w.2 = false ∧ (w.1 = Pin.A_ena ∨ w.1 = Pin.B_ena)) ∧
      (∀ w ∈ post, w.2 = true ∧ (w.1 = Pin.A_ena ∨ w.1 = Pin.B_ena)) ∧
      (st.A_ena = false → (Pin.A_ena, false) ∈ pre) ∧
      (st.B_ena = false → (Pin.B_ena, false) ∈ pre) ∧
      (st.A_ena = true → (Pin.A_ena, true) ∈ post) ∧
      (st.B_ena = true → (Pin.B_ena, true) ∈ post) := by
  refine ⟨(if st.A_ena = false then [(Pin.A_ena, false)] else []) ++
          (if st.B_ena = false then [(Pin.B_ena, false)] else []),
          (if st.A_ena = true then [(Pin.A_ena, true)] else []) ++
          (if st.B_ena = true then [(Pin.B_ena, true)] else []),
          by simp [StepperSet], ?_, ?_, ?_, ?_, ?_, ?_⟩ <;>
    rcases hA : st.A_ena <;> rcases hB : st.B_ena <;> simp [hA, hB]

/-- Counterexample to C4 as stated: a Move whose position token does
not parse returns the error acknowledgement, yet `lock_when_done` has
been reset from `true` to `false` (the handler clears it before
parsing), so not every MotionState field is unchanged. -/
theorem stepper_c4_cex :
    (StepperCmndStep [Token.nonnum (-1)]
      { initState with lock_when_done := true }).1 = CmndResult.error ∧
    ({ initState with lock_when_done := true }).lock_when_done = true ∧
    (StepperCmndStep [Token.nonnum (-1)]
      { initState with lock_when_done := true }).2.lock_when_done = false := by
  decide

theorem speedParseScheme_error_frame (hep : Bool) (args : List Token)
    (s : StepperState) (h : (speedParseScheme hep args s).1 = CmndResult.error) :
    (speedParseScheme hep args s).2 = s := by
  cases args with
  | nil => simp [speedParseScheme] at h
  | cons t rest =>
    cases t with
    | blank => simp [speedParseScheme] at h
    | nonnum g => rfl
    | num n =>
      simp only [speedParseScheme] at h ⊢
      rcases hss : speedSelectScheme hep (int32wrap n) with _ | p
      · rfl
      · rw [hss] at h; simp at h

theorem stepParseLock_error_frame (args : List Token) (req : Int) (b : Bool)
    (s : StepperState) (h : (stepParseLock args req b s).1 = CmndResult.error) :
    (stepParseLock args req b s).2 = s := by
  cases args with
  | nil => exact absurd h (by simp [stepParseLock, stepFinish])
  | cons t rest =>
    cases t with
    | blank => exact absurd h (by simp [stepParseLock, stepFinish])
    | num n =>
      by_cases h0 : int32wrap n = 0
      · exact absurd h (by simp [stepParseLock, h0, stepFinish])
      · by_cases h1 : int32wrap n = 1
        · exact absurd h (by simp [stepParseLock, h0, h1, stepFinish])
        · simp [stepParseLock, h0, h1]
    | nonnum g =>
      by_cases h0 : g = 0
      · exact absurd h (by simp [stepParseLock, h0, stepFinish])
      · by_cases h1 : g = 1
        · exact absurd h (by simp [stepParseLock, h0, h1, stepFinish])
        · simp [stepParseLock, h0, h1]

theorem stepParseAbsolute_error_frame (args : List Token) (req : Int)
    (s : StepperState)
    (h : (stepParseAbsolute args req s).1 = CmndResult.error) :
    (stepParseAbsolute args req s).2 = s := by
  cases args with
  | nil => exact absurd h (by simp [stepParseAbsolute, stepFinish])
  | cons t rest =>
    cases t with
    | blank => exact stepParseLock_error_frame rest req true s h
    | num n =>
      by_cases h0 : int32wrap n = 0
      · rw [show stepParseAbsolute (Token.num n :: rest) req s =
              stepParseLock rest req false s from by
            simp [stepParseAbsolute, h0]] at h ⊢
        exact stepParseLock_error_frame rest req false s h
      · by_cases h1 : int32wrap n = 1
        · rw [show stepParseAbsolute (Token.num n :: rest) req s =
                stepParseLock rest req true s from by
              simp [stepParseAbsolute, h0, h1]] at h ⊢
          exact stepParseLock_error_frame rest req true s h
        · simp [stepParseAbsolute, h0, h1]
    | nonnum g =>
      by_cases h0 : g = 0
      · rw [show stepParseAbsolute (Token.nonnum g :: rest) req s =
              stepParseLock rest req false s from by
            simp [stepParseAbsolute, h0]] at h ⊢
        exact stepParseLock_error_frame rest req false s h
      · by_cases h1 : g = 1
        · rw [show stepParseAbsolute (Token.nonnum g :: rest) req s =
                stepParseLock rest req true s from by
              simp [stepParseAbsolute, h0, h1]] at h ⊢
          exact stepParseLock_error_frame rest req true s h
        · simp [stepParseAbsolute, h0, h1]

/-- C4 amended: a command that fails with the error acknowledgement
leaves `current_pos`, `wanted_pos`, `current_phase`, the active scheme,
`max_phase` and `idle` unchanged; however a failing Move has already
reset `lock_when_done` to `false`, and a failing Configure may already
have overwritten `tick_us` (Calibrate never fails). -/
theorem stepper_c4_amended (hep : Bool) (args : List Token)
    (s : StepperState) :
    (StepperCmndCalibrate s).1 = CmndResult.done ∧
    ((StepperCmndSpeed hep args s).1 = CmndResult.error →
      (StepperCmndSpeed hep args s).2 =
        { s with tick_us := (StepperCmndSpeed hep args s).2.tick_us }) ∧
    ((StepperCmndStep args s).1 = CmndResult.error →
      (StepperCmndStep args s).2 = { s with lock_when_done := false }) := by
  refine ⟨rfl, ?_, ?_⟩
  · cases args with
    | nil => intro h; simp [StepperCmndSpeed] at h
    | cons t rest =>
      cases t with
      | blank =>
        intro h
        have hf := speedParseScheme_error_frame hep rest s h
        rw [show (StepperCmndSpeed hep (Token.blank :: rest) s).2 =
              (speedParseScheme hep rest s).2 from rfl, hf]
      | num n =>
        intro h
        have hf := speedParseScheme_error_frame hep rest
          { s with tick_us := u32ofInt n } h
        rw [show (StepperCmndSpeed hep (Token.num n :: rest) s).2 =
              (speedParseScheme hep rest { s with tick_us := u32ofInt n }).2
            from rfl, hf]
      | nonnum g => intro _; rfl
  · cases args with
    | nil => intro h; simp [StepperCmndStep, stepFinish] at h
    | cons t rest =>
      cases t with
      | blank =>
        intro h
        exact stepParseAbsolute_error_frame rest 0
          { s with lock_when_done := false } h
      | num n =>
        intro h
        exact stepParseAbsolute_error_frame rest (int32wrap n)
          { s with lock_when_done := false } h
      | nonnum g => intro _; rfl

/-- Witness for the amended C4: a Move with an unparsable position
token fails and leaves everything unchanged except the already-cleared
`lock_when_done`. -/
theorem stepper_c4_amended_witness :
    (StepperCmndStep [Token.nonnum 5] initState).1 = CmndResult.error ∧
    (StepperCmndStep [Token.nonnum 5] initState).2 =
      { initState with lock_when_done := false } :=
  ⟨by decide, (stepper_c4_amended true [Token.nonnum 5] initState).2.2 (by decide)⟩

/-- Counterexample to C6 as stated: in the `src/sonoff` revision the
Configure command accepts `tick_us = 1000000` (32-bit, no range check)
although its timer reload `80 * 1000000` does not fit the 23-bit
counter, so an out-of-range period is not rejected at configure
time. -/
theorem stepper_c6_cex :
    (StepperCmndSpeed true [Token.num 1000000] initState).1 =
      CmndResult.done ∧
    (StepperCmndSpeed true [Token.num 1000000] initState).2.tick_us =
      1000000 ∧
    2 ^ 23 ≤
      timerReload (StepperCmndSpeed true [Token.num 1000000] initState).2.tick_us := by
  refine ⟨rfl, by decide, by decide⟩

theorem toUInt16_lt (n : Int) : toUInt16 n < 65536 := by
  unfold toUInt16; omega

theorem SelectScheme_tick_us (s : P0.State) (n : Int) (s2 : P0.State)
    (h : P0.SelectScheme s n = some s2) : s2.tick_us = s.tick_us := by
  unfold P0.SelectScheme at h
  split at h
  · exact absurd h (by simp)
  · split at h <;> (injection h with h2; rw [h2.symm])

theorem speedParseScheme0_tick_us (args : List Token) (s : P0.State) :
    (P0.speedParseScheme args s).2.tick_us = s.tick_us := by
  cases args with
  | nil => rfl
  | cons t rest =>
    cases t with
    | blank => rfl
    | nonnum g => rfl
    | num n =>
      rcases hss : P0.SelectScheme s (int32wrap n) with _ | s2
      · simp [P0.speedParseScheme, hss]
      · simp [P0.speedParseScheme, hss,
              SelectScheme_tick_us s (int32wrap n) s2 hss]

theorem speed0_tick_us (args : List Token) (s : P0.State) :
    (P0.StepperCmndSpeed args s).2.tick_us = s.tick_us ∨
    ∃ n, (P0.StepperCmndSpeed args s).2.tick_us = toUInt16 n := by
  cases args with
  | nil => exact Or.inl rfl
  | cons t1 rest =>
    cases t1 with
    | blank => exact Or.inl (speedParseScheme0_tick_us rest s)
    | nonnum g => exact Or.inl rfl
    | num n =>
      simp only [P0.StepperCmndSpeed]
      split
      · exact Or.inr ⟨n, by rw [speedParseScheme0_tick_us]⟩
      · exact Or.inl (speedParseScheme0_tick_us rest s)

/-- C6 amended: in the `part_000` revision `tick_us` is a 16-bit
value, so every tick period the Configure command can store satisfies
`timerReload tick_us < 2 ^ 23` (the comment at its reload site:
23 bits minus the 7-bit multiplier 80 leaves 16 bits); but an
over-range request is truncated modulo 2 ^ 16 at parse time and
accepted, not rejected (e.g. 100000 is stored as 34464), and the
`src/sonoff` revision accepts 32-bit periods whose reload overflows
the counter. -/
theorem stepper_c6_amended :
    (∀ (args : List Token) (s : P0.State), s.tick_us < 65536 →
        ((P0.StepperCmndSpeed args s).2.tick_us < 65536 ∧
         timerReload (P0.StepperCmndSpeed args s).2.tick_us < 2 ^ 23)) ∧
    ((P0.StepperCmndSpeed [Token.num 100000] sampleState0).1 =
        CmndResult.done ∧
     (P0.StepperCmndSpeed [Token.num 100000] sampleState0).2.tick_us =
        34464) := by
  constructor
  · intro args s hs
    have hb : (P0.StepperCmndSpeed args s).2.tick_us < 65536 := by
      rcases speed0_tick_us args s with h | ⟨n, h⟩
      · omega
      · rw [h]; exact toUInt16_lt n
    refine ⟨hb, ?_⟩
    have : timerReload (P0.StepperCmndSpeed args s).2.tick_us =
        80 * (P0.StepperCmndSpeed args s).2.tick_us := by
      unfold timerReload ESP8266_CLOCK; norm_num
    rw [this]; omega
  · exact ⟨by decide, by decide⟩

/-- Witness for the amended C6: a Configure with no arguments keeps the
16-bit `tick_us` below 2 ^ 16 and its reload below 2 ^ 23. -/
theorem stepper_c6_amended_witness :
    (P0.StepperCmndSpeed [] sampleState0).2.tick_us < 65536 ∧
    timerReload (P0.StepperCmndSpeed [] sampleState0).2.tick_us < 2 ^ 23 :=
  stepper_c6_amended.1 [] sampleState0 (by decide)

theorem int32wrap_id (n : Int) (h1 : -(2 ^ 31) ≤ n) (h2 : n < 2 ^ 31) :
    int32wrap n = n := by
  unfold int32wrap; omega

/-- C7: a successful Move sets `wanted_pos` to the requested position
when the absolute flag is 1 and to `current_pos` plus the request when
the flag is 0; with no arguments it targets absolute position 0 with
`lock_when_done = false`; and in all three cases it ends not idle with
the timer interrupt enabled. -/
theorem stepper_c7 (s : StepperState) (n : Int)
    (hn1 : -(2 ^ 31) ≤ n) (hn2 : n < 2 ^ 31)
    (hr1 : -(2 ^ 31) ≤ s.current_pos + n) (hr2 : s.current_pos + n < 2 ^ 31) :
    ((StepperCmndStep [Token.num n, Token.num 1] s).1 = CmndResult.done ∧
     (StepperCmndStep [Token.num n, Token.num 1] s).2.wanted_pos = n ∧
     (StepperCmndStep [Token.num n, Token.num 1] s).2.idle = false ∧
     (StepperCmndStep [Token.num n, Token.num 1] s).2.teie1 = true) ∧
    ((StepperCmndStep [Token.num n, Token.num 0] s).1 = CmndResult.done ∧
     (StepperCmndStep [Token.num n, Token.num 0] s).2.wanted_pos =
        s.current_pos + n ∧
     (StepperCmndStep [Token.num n, Token.num 0] s).2.idle = false ∧
     (StepperCmndStep [Token.num n, Token.num 0] s).2.teie1 = true) ∧
    ((StepperCmndStep [] s).1 = CmndResult.done ∧
     (StepperCmndStep [] s).2.wanted_pos = 0 ∧
     (StepperCmndStep [] s).2.lock_when_done = false ∧
     (StepperCmndStep [] s).2.idle = false ∧
     (StepperCmndStep [] s).2.teie1 = true) := by
  have hw := int32wrap_id n hn1 hn2
  have hw2 := int32wrap_id (s.current_pos + n) hr1 hr2
  have h0 : int32wrap 0 = 0 := by decide
  have h1 : int32wrap 1 = 1 := by decide
  refine ⟨?_, ?_, ?_⟩ <;>
    simp [StepperCmndStep, stepParseAbsolute, stepParseLock, stepFinish,
          hw, hw2, h0, h1]

/-- Witness for C7: Move to absolute position 5 from the initial state
succeeds, targets 5 and leaves the module stepping. -/
theorem stepper_c7_witness :
    (StepperCmndStep [Token.num 5, Token.num 1] initState).1 =
      CmndResult.done ∧
    (StepperCmndStep [Token.num 5, Token.num 1] initState).2.wanted_pos = 5 ∧
    (StepperCmndStep [Token.num 5, Token.num 1] initState).2.idle = false := by
  have h := (stepper_c7 initState 5 (by decide) (by decide) (by decide)
    (by decide)).1
  exact ⟨h.1, h.2.1, h.2.2.1⟩

/-- C9: a Configure command whose scheme token is a valid index resets
`current_phase` to 0 and leaves `current_pos`, `wanted_pos`, `idle` and
`lock_when_done` unchanged, whether or not a tick-period token
precedes the scheme token. -/
theorem stepper_c9 (hep : Bool) (s : StepperState) (m c : Int)
    (hc : c = 0 ∨ c = 1 ∨ c = 2 ∨ c = 3) :
    ((StepperCmndSpeed hep [Token.blank, Token.num c] s).1 =
        CmndResult.done ∧
     (StepperCmndSpeed hep [Token.blank, Token.num c] s).2.current_phase = 0 ∧
     (StepperCmndSpeed hep [Token.blank, Token.num c] s).2.current_pos =
        s.current_pos ∧
     (StepperCmndSpeed hep [Token.blank, Token.num c] s).2.wanted_pos =
        s.wanted_pos ∧
     (StepperCmndSpeed hep [Token.blank, Token.num c] s).2.idle = s.idle ∧
     (StepperCmndSpeed hep [Token.blank, Token.num c] s).2.lock_when_done =
        s.lock_when_done) ∧
    ((StepperCmndSpeed hep [Token.num m, Token.num c] s).1 =
        CmndResult.done ∧
     (StepperCmndSpeed hep [Token.num m, Token.num c] s).2.current_phase = 0 ∧
     (StepperCmndSpeed hep [Token.num m, Token.num c] s).2.current_pos =
        s.current_pos ∧
     (StepperCmndSpeed hep [Token.num m, Token.num c] s).2.wanted_pos =
        s.wanted_pos ∧
     (StepperCmndSpeed hep [Token.num m, Token.num c] s).2.idle = s.idle ∧
     (StepperCmndSpeed hep [Token.num m, Token.num c] s).2.lock_when_done =
        s.lock_when_done) := by
  have h0 : int32wrap 0 = 0 := by decide
  have h1 : int32wrap 1 = 1 := by decide
  have h2 : int32wrap 2 = 2 := by decide
  have h3 : int32wrap 3 = 3 := by decide
  rcases hc with rfl | rfl | rfl | rfl <;> cases hep <;>
    constructor <;>
      simp [StepperCmndSpeed, speedParseScheme, speedSelectScheme,
            h0, h1, h2, h3]

/-- Witness for C9: selecting scheme 0 after a phase-5 stepping state
zeroes the phase and keeps the position fields. -/
theorem stepper_c9_witness :
    (StepperCmndSpeed true [Token.blank, Token.num 0]
      { initState with current_phase := 5, idle := false,
                       wanted_pos := 3 }).2.current_phase = 0 ∧
    (StepperCmndSpeed true [Token.blank, Token.num 0]
      { initState with current_phase := 5, idle := false,
                       wanted_pos := 3 }).2.wanted_pos = 3 := by
  have h := (stepper_c9 true
    { initState with current_phase := 5, idle := false, wanted_pos := 3 }
    7 0 (Or.inl rfl)).1
  exact ⟨h.2.1, h.2.2.2.1⟩

/-- Witness for C10: after a Move with no arguments followed by one
tick, the module is idle and the position error is zero. -/
theorem stepper_c10_witness :
    (runSeq true [Cmd.step [], Cmd.tick] initState).idle = true ∧
    (runSeq true [Cmd.step [], Cmd.tick] initState).wanted_pos =
      (runSeq true [Cmd.step [], Cmd.tick] initState).current_pos :=
  ⟨by decide, stepper_c10 true [Cmd.step [], Cmd.tick] (by decide)⟩
